import Mathlib

/-!
Verification development for the ArtraCFD core numerical engine.

The definitions below are shallow embeddings of the C sources:
machine doubles are modelled as elements of a linear ordered field
(instantiated at ℝ, or at ℚ for executable witnesses), C arrays are
modelled as functions from their index type, and in-place array writes
are modelled with Function.update or by returning the updated state.
Sequential loops become List.foldl over the loop ranges in loop order.
-/

namespace ArtraCFD

variable {K : Type} [LinearOrderedField K]

/-! ## Index and coordinate primitives (cfd_commons.c) -/

/-- Embedding of IndexNode: linearization of (k,j,i) with row sizes jMax, iMax. -/
def IndexNode (k j i jMax iMax : ℤ) : ℤ :=
  (k * jMax + j) * iMax + i

/-- Embedding of PointSpace: node index to physical coordinate. -/
def PointSpace (n : ℤ) (sMin : K) (ds : K) (ng : ℤ) : K :=
  sMin + ((n - ng : ℤ) : K) * ds

/-- Embedding of MinReal. -/
def MinReal (x y : K) : K :=
  if x < y then x else y

/-- Embedding of MaxReal. -/
def MaxReal (x y : K) : K :=
  if x > y then x else y

/-! ## Thermodynamic conversions (cfd_commons.c) -/

/-- Embedding of ComputePressure. -/
def ComputePressure (gamma : K) (U : Fin 5 → K) : K :=
  (U 4 - 0.5 * (U 1 * U 1 + U 2 * U 2 + U 3 * U 3) / U 0) * (gamma - 1)

/-- Embedding of ComputeTemperature. -/
def ComputeTemperature (cv : K) (U : Fin 5 → K) : K :=
  (U 4 - 0.5 * (U 1 * U 1 + U 2 * U 2 + U 3 * U 3) / U 0) / (U 0 * cv)

/-- Embedding of PrimitiveByConservative: primitive vector (rho,u,v,w,p,T)
from conservative vector (rho,rho u,rho v,rho w,rho eT). -/
def PrimitiveByConservative (gamma gasR : K) (U : Fin 5 → K) : Fin 6 → K :=
  let Uo0 := U 0
  let Uo1 := U 1 / U 0
  let Uo2 := U 2 / U 0
  let Uo3 := U 3 / U 0
  let Uo4 := (U 4 - 0.5 * (U 1 * U 1 + U 2 * U 2 + U 3 * U 3) / U 0) * (gamma - 1)
  let Uo5 := Uo4 / (Uo0 * gasR)
  ![Uo0, Uo1, Uo2, Uo3, Uo4, Uo5]

/-- Embedding of ConservativeByPrimitive. -/
def ConservativeByPrimitive (gamma : K) (Uo : Fin 6 → K) : Fin 5 → K :=
  ![Uo 0,
    Uo 0 * Uo 1,
    Uo 0 * Uo 2,
    Uo 0 * Uo 3,
    0.5 * Uo 0 * (Uo 1 * Uo 1 + Uo 2 * Uo 2 + Uo 3 * Uo 3) + Uo 4 / (gamma - 1)]

/-! ## Characteristic decomposition (cfd_commons.c) -/

/-- Embedding of SymmetricAverage.  The output array Uo is passed in and
only slots 1..5 are written (as in the source); slot 0 keeps its prior value. -/
noncomputable def SymmetricAverage (averager : ℤ) (gamma : ℝ)
    (UL UR : Fin 5 → ℝ) (Uo : Fin 6 → ℝ) : Fin 6 → ℝ :=
  let rhoL := UL 0
  let uL := UL 1 / rhoL
  let vL := UL 2 / rhoL
  let wL := UL 3 / rhoL
  let hTL := (UL 4 / rhoL) * gamma - 0.5 * (uL * uL + vL * vL + wL * wL) * (gamma - 1)
  let rhoR := UR 0
  let uR := UR 1 / rhoR
  let vR := UR 2 / rhoR
  let wR := UR 3 / rhoR
  let hTR := (UR 4 / rhoR) * gamma - 0.5 * (uR * uR + vR * vR + wR * wR) * (gamma - 1)
  let D : ℝ := if averager = 1 then Real.sqrt (rhoR / rhoL) else 1
  let Uo := Function.update Uo 1 ((uL + D * uR) / (1 + D))
  let Uo := Function.update Uo 2 ((vL + D * vR) / (1 + D))
  let Uo := Function.update Uo 3 ((wL + D * wR) / (1 + D))
  let Uo := Function.update Uo 4 ((hTL + D * hTR) / (1 + D))
  Function.update Uo 5
    (Real.sqrt ((gamma - 1) * (Uo 4 - 0.5 * (Uo 1 * Uo 1 + Uo 2 * Uo 2 + Uo 3 * Uo 3))))

/-- Embedding of LocalLaxFriedrichs; returns (LambdaP, LambdaN). -/
noncomputable def LocalLaxFriedrichs (Lambda : Fin 5 → ℝ) : (Fin 5 → ℝ) × (Fin 5 → ℝ) :=
  let lambdaStar := |Lambda 2| + Lambda 4 - Lambda 2
  (fun row => 0.5 * (Lambda row + lambdaStar),
   fun row => 0.5 * (Lambda row - lambdaStar))

/-- Embedding of StegerWarming; returns (LambdaP, LambdaN). -/
noncomputable def StegerWarming (Lambda : Fin 5 → ℝ) : (Fin 5 → ℝ) × (Fin 5 → ℝ) :=
  let epsilon : ℝ := 1.0e-3
  (fun row => 0.5 * (Lambda row + Real.sqrt (Lambda row * Lambda row + epsilon * epsilon)),
   fun row => 0.5 * (Lambda row - Real.sqrt (Lambda row * Lambda row + epsilon * epsilon)))

/-- Embedding of EigenvectorLZ. -/
def EigenvectorLZ (u v w c q b d : ℝ) : Matrix (Fin 5) (Fin 5) ℝ :=
  !![b * q + d * w, -b * u, -b * v, -b * w - d, b;
     -2 * b * q * u, 2 * b * u * u + 1, 2 * b * v * u, 2 * b * w * u, -2 * b * u;
     -2 * b * q * v, 2 * b * v * u, 2 * b * v * v + 1, 2 * b * w * v, -2 * b * v;
     -2 * b * q + 1, 2 * b * u, 2 * b * v, 2 * b * w, -2 * b;
     b * q - d * w, -b * u, -b * v, -b * w + d, b]

/-- Embedding of EigenvectorLY. -/
def EigenvectorLY (u v w c q b d : ℝ) : Matrix (Fin 5) (Fin 5) ℝ :=
  !![b * q + d * v, -b * u, -b * v - d, -b * w, b;
     -2 * b * q * u, 2 * b * u * u + 1, 2 * b * v * u, 2 * b * w * u, -2 * b * u;
     -2 * b * q + 1, 2 * b * u, 2 * b * v, 2 * b * w, -2 * b;
     -2 * b * q * w, 2 * b * w * u, 2 * b * w * v, 2 * b * w * w + 1, -2 * b * w;
     b * q - d * v, -b * u, -b * v + d, -b * w, b]

/-- Embedding of EigenvectorLX. -/
def EigenvectorLX (u v w c q b d : ℝ) : Matrix (Fin 5) (Fin 5) ℝ :=
  !![b * q + d * u, -b * u - d, -b * v, -b * w, b;
     -2 * b * q + 1, 2 * b * u, 2 * b * v, 2 * b * w, -2 * b;
     -2 * b * q * v, 2 * b * v * u, 2 * b * v * v + 1, 2 * b * w * v, -2 * b * v;
     -2 * b * q * w, 2 * b * w * u, 2 * b * w * v, 2 * b * w * w + 1, -2 * b * w;
     b * q - d * u, -b * u + d, -b * v, -b * w, b]

/-- Embedding of EigenvectorL: dispatch over direction s with
q, b, d computed from the averaged state Uo as in the source. -/
noncomputable def EigenvectorL (s : Fin 3) (gamma : ℝ) (Uo : Fin 6 → ℝ) : Matrix (Fin 5) (Fin 5) ℝ :=
  let u := Uo 1
  let v := Uo 2
  let w := Uo 3
  let c := Uo 5
  let q := 0.5 * (u * u + v * v + w * w)
  let b := (gamma - 1) / (2 * c * c)
  let d := 1 / (2 * c)
  match s with
  | 0 => EigenvectorLX u v w c q b d
  | 1 => EigenvectorLY u v w c q b d
  | 2 => EigenvectorLZ u v w c q b d

/-- Embedding of EigenvectorRZ. -/
def EigenvectorRZ (u v w hT c q : ℝ) : Matrix (Fin 5) (Fin 5) ℝ :=
  !![1, 0, 0, 1, 1;
     u, 1, 0, 0, u;
     v, 0, 1, 0, v;
     w - c, 0, 0, w, w + c;
     hT - w * c, u, v, w * w - q, hT + w * c]

/-- Embedding of EigenvectorRY. -/
def EigenvectorRY (u v w hT c q : ℝ) : Matrix (Fin 5) (Fin 5) ℝ :=
  !![1, 0, 1, 0, 1;
     u, 1, 0, 0, u;
     v - c, 0, v, 0, v + c;
     w, 0, 0, 1, w;
     hT - v * c, u, v * v - q, w, hT + v * c]

/-- Embedding of EigenvectorRX. -/
def EigenvectorRX (u v w hT c q : ℝ) : Matrix (Fin 5) (Fin 5) ℝ :=
  !![1, 1, 0, 0, 1;
     u - c, u, 0, 0, u + c;
     v, 0, 1, 0, v;
     w, 0, 0, 1, w;
     hT - u * c, u * u - q, v, w, hT + u * c]

/-- Embedding of EigenvectorR: dispatch over direction s. -/
def EigenvectorR (s : Fin 3) (Uo : Fin 6 → ℝ) : Matrix (Fin 5) (Fin 5) ℝ :=
  let u := Uo 1
  let v := Uo 2
  let w := Uo 3
  let hT := Uo 4
  let c := Uo 5
  let q := 0.5 * (u * u + v * v + w * w)
  match s with
  | 0 => EigenvectorRX u v w hT c q
  | 1 => EigenvectorRY u v w hT c q
  | 2 => EigenvectorRZ u v w hT c q

/-! ## Viscous flux (cfd_commons.c) -/

/-- Embedding of Viscosity: Sutherland law for dimensional temperature. -/
noncomputable def Viscosity (T : ℝ) : ℝ :=
  1.458e-6 * T ^ (1.5 : ℝ) / (T + 110.4)

/-- Embedding of PrandtlNumber. -/
def PrandtlNumber : ℝ := 0.71

/-- Fields of the Model structure read by the diffusive-flux kernels. -/
structure Model where
  gamma : ℝ
  cv : ℝ
  refMu : ℝ
  refT : ℝ

/-- Embedding of NumericalDiffusiveFluxX.  The node array is modelled as a
function from linear index and time level to the conservative vector; the
array n holds (iMax, jMax, kMax) at positions (0,1,2) = (X,Y,Z) and dd the
reciprocal spacings. -/
noncomputable def NumericalDiffusiveFluxX (tn : ℕ) (k j i : ℤ)
    (n : Fin 3 → ℤ) (dd : Fin 3 → ℝ) (node : ℤ → ℕ → Fin 5 → ℝ)
    (model : Model) : Fin 5 → ℝ :=
  let idx := IndexNode k j i (n 1) (n 0)
  let idxS := IndexNode k (j - 1) i (n 1) (n 0)
  let idxN := IndexNode k (j + 1) i (n 1) (n 0)
  let idxF := IndexNode (k - 1) j i (n 1) (n 0)
  let idxB := IndexNode (k + 1) j i (n 1) (n 0)
  let idxE := IndexNode k j (i + 1) (n 1) (n 0)
  let idxSE := IndexNode k (j - 1) (i + 1) (n 1) (n 0)
  let idxNE := IndexNode k (j + 1) (i + 1) (n 1) (n 0)
  let idxFE := IndexNode (k - 1) j (i + 1) (n 1) (n 0)
  let idxBE := IndexNode (k + 1) j (i + 1) (n 1) (n 0)
  let U := node idx tn
  let u := U 1 / U 0
  let v := U 2 / U 0
  let w := U 3 / U 0
  let T := ComputeTemperature model.cv U
  let US := node idxS tn
  let uS := US 1 / US 0
  let vS := US 2 / US 0
  let UN := node idxN tn
  let uN := UN 1 / UN 0
  let vN := UN 2 / UN 0
  let UF := node idxF tn
  let uF := UF 1 / UF 0
  let wF := UF 3 / UF 0
  let UB := node idxB tn
  let uB := UB 1 / UB 0
  let wB := UB 3 / UB 0
  let UE := node idxE tn
  let uE := UE 1 / UE 0
  let vE := UE 2 / UE 0
  let wE := UE 3 / UE 0
  let TE := ComputeTemperature model.cv UE
  let USE := node idxSE tn
  let uSE := USE 1 / USE 0
  let vSE := USE 2 / USE 0
  let UNE := node idxNE tn
  let uNE := UNE 1 / UNE 0
  let vNE := UNE 2 / UNE 0
  let UFE := node idxFE tn
  let uFE := UFE 1 / UFE 0
  let wFE := UFE 3 / UFE 0
  let UBE := node idxBE tn
  let uBE := UBE 1 / UBE 0
  let wBE := UBE 3 / UBE 0
  let du_dx := (uE - u) * dd 0
  let dv_dy := 0.25 * (vN + vNE - vS - vSE) * dd 1
  let dw_dz := 0.25 * (wB + wBE - wF - wFE) * dd 2
  let du_dy := 0.25 * (uN + uNE - uS - uSE) * dd 1
  let dv_dx := (vE - v) * dd 0
  let du_dz := 0.25 * (uB + uBE - uF - uFE) * dd 2
  let dw_dx := (wE - w) * dd 0
  let dT_dx := (TE - T) * dd 0
  let uhat := 0.5 * (u + uE)
  let vhat := 0.5 * (v + vE)
  let what := 0.5 * (w + wE)
  let That := 0.5 * (T + TE)
  let mu := model.refMu * Viscosity (That * model.refT)
  let heatK := model.gamma * model.cv * mu / PrandtlNumber
  let divV := du_dx + dv_dy + dw_dz
  let Fv1 := mu * (2 * du_dx - (2 / 3) * divV)
  let Fv2 := mu * (du_dy + dv_dx)
  let Fv3 := mu * (du_dz + dw_dx)
  ![0, Fv1, Fv2, Fv3, heatK * dT_dx + Fv1 * uhat + Fv2 * vhat + Fv3 * what]

/-- Specification-side x-face diffusive flux, written from the words of the
specification (normal derivatives two-point, tangential derivatives by the
four-point average across the face, face values arithmetic means, Sutherland
viscosity at the face temperature, heat conductivity gamma cv mu / Pr with
Pr = 0.71).  It is compared against the source embedding above. -/
noncomputable def SpecDiffusiveFluxX (tn : ℕ) (k j i : ℤ)
    (n : Fin 3 → ℤ) (dd : Fin 3 → ℝ) (node : ℤ → ℕ → Fin 5 → ℝ)
    (model : Model) : Fin 5 → ℝ :=
  let U := node (IndexNode k j i (n 1) (n 0)) tn
  let UE := node (IndexNode k j (i + 1) (n 1) (n 0)) tn
  let UN := node (IndexNode k (j + 1) i (n 1) (n 0)) tn
  let UNE := node (IndexNode k (j + 1) (i + 1) (n 1) (n 0)) tn
  let US := node (IndexNode k (j - 1) i (n 1) (n 0)) tn
  let USE := node (IndexNode k (j - 1) (i + 1) (n 1) (n 0)) tn
  let UB := node (IndexNode (k + 1) j i (n 1) (n 0)) tn
  let UBE := node (IndexNode (k + 1) j (i + 1) (n 1) (n 0)) tn
  let UF := node (IndexNode (k - 1) j i (n 1) (n 0)) tn
  let UFE := node (IndexNode (k - 1) j (i + 1) (n 1) (n 0)) tn
  let u := U 1 / U 0
  let v := U 2 / U 0
  let w := U 3 / U 0
  let T := ComputeTemperature model.cv U
  let uE := UE 1 / UE 0
  let vE := UE 2 / UE 0
  let wE := UE 3 / UE 0
  let TE := ComputeTemperature model.cv UE
  -- face-normal two-point differences
  let du_dx := (uE - u) * dd 0
  let dv_dx := (vE - v) * dd 0
  let dw_dx := (wE - w) * dd 0
  let dT_dx := (TE - T) * dd 0
  -- tangential four-point averages across the face
  let du_dy := 0.25 * (UN 1 / UN 0 + UNE 1 / UNE 0 - US 1 / US 0 - USE 1 / USE 0) * dd 1
  let dv_dy := 0.25 * (UN 2 / UN 0 + UNE 2 / UNE 0 - US 2 / US 0 - USE 2 / USE 0) * dd 1
  let du_dz := 0.25 * (UB 1 / UB 0 + UBE 1 / UBE 0 - UF 1 / UF 0 - UFE 1 / UFE 0) * dd 2
  let dw_dz := 0.25 * (UB 3 / UB 0 + UBE 3 / UBE 0 - UF 3 / UF 0 - UFE 3 / UFE 0) * dd 2
  -- face values as arithmetic means of the two adjacent nodes
  let uhat := 0.5 * (u + uE)
  let vhat := 0.5 * (v + vE)
  let what := 0.5 * (w + wE)
  let That := 0.5 * (T + TE)
  let muhat := model.refMu * Viscosity (That * model.refT)
  let khat := model.gamma * model.cv * muhat / 0.71
  let divV := du_dx + dv_dy + dw_dz
  let F1 := muhat * (2 * du_dx - (2 / 3) * divV)
  let F2 := muhat * (du_dy + dv_dx)
  let F3 := muhat * (du_dz + dw_dx)
  ![0, F1, F2, F3, khat * dT_dx + F1 * uhat + F2 * vhat + F3 * what]

/-! ## Vector algebra (cfd_commons.c) -/

/-- Embedding of Dot. -/
def Dot (V1 V2 : Fin 3 → ℝ) : ℝ :=
  V1 0 * V2 0 + V1 1 * V2 1 + V1 2 * V2 2

/-- Embedding of Norm. -/
noncomputable def Norm (V : Fin 3 → ℝ) : ℝ :=
  Real.sqrt (Dot V V)

/-- Embedding of Cross: the result vector is the THIRD argument of the C
function; here it is the returned value, computed from the two inputs. -/
def Cross (V1 V2 : Fin 3 → ℝ) : Fin 3 → ℝ :=
  ![V1 1 * V2 2 - V1 2 * V2 1,
    V1 2 * V2 0 - V1 0 * V2 2,
    V1 0 * V2 1 - V1 1 * V2 0]

/-- Embedding of Normalize (dimV = 3 case used by OrthogonalSpace). -/
noncomputable def Normalize (normalizer : ℝ) (V : Fin 3 → ℝ) : Fin 3 → ℝ :=
  fun r => V r / normalizer

/-- Embedding of OrthogonalSpace(N, Ta, Tb).  Returns the final (Ta, Tb)
pair.  The source picks the coordinate axis of smallest magnitude in N,
builds a tangent in Ta and normalizes it, and then executes
Cross(Tb, N, Ta): since the output of Cross is its third argument, this
stores Tb x N into Ta (overwriting the normalized tangent) and leaves Tb
untouched. -/
noncomputable def OrthogonalSpace (N Ta Tb : Fin 3 → ℝ) :
    ((Fin 3 → ℝ) × (Fin 3 → ℝ)) :=
  let mark0 : Fin 3 := 2
  let mark1 : Fin 3 := if |N mark0| > |N 1| then 1 else mark0
  let mark2 : Fin 3 := if |N mark1| > |N 0| then 0 else mark1
  let Ta1 : Fin 3 → ℝ :=
    if mark2 = 0 then ![0, -N 2, N 1]
    else if mark2 = 1 then ![-N 2, 0, N 0]
    else ![-N 1, N 0, 0]
  let Ta2 := Normalize (Norm Ta1) Ta1
  let Ta3 := Cross Tb N
  (Ta3, Tb)

/-! ## EnSight geometry export (ensightexporter.c) -/

/-- Embedding of the iblank computation in WriteEnsightGeometryFile:
blankID is 1 when -offset < flag < offset, else 0. -/
def EnsightBlankID (offset flag : ℤ) : ℤ :=
  if (-offset < flag) ∧ (flag < offset) then 1 else 0

/-! ## CFD parameter initialization (cfdparameters.c) -/

/-- Fields of the Space structure touched by cfdparameters.c. -/
structure CSpace where
  nx : ℤ
  ny : ℤ
  nz : ℤ
  ng : ℤ
  iMax : ℤ
  jMax : ℤ
  kMax : ℤ
  nMax : ℤ
  xMin : ℝ
  xMax : ℝ
  yMin : ℝ
  yMax : ℝ
  zMin : ℝ
  zMax : ℝ
  dx : ℝ
  dy : ℝ
  dz : ℝ
  ddx : ℝ
  ddy : ℝ
  ddz : ℝ
  tinyL : ℝ

/-- Fields of the Time structure touched by cfdparameters.c. -/
structure CTime where
  totalTime : ℝ
  totalStep : ℤ

/-- Fields of the Flow structure touched by cfdparameters.c. -/
structure CFlow where
  refLength : ℝ
  refVelocity : ℝ
  refDensity : ℝ
  refTemperature : ℝ
  refMu : ℝ
  gamma : ℝ
  gammaMinusOne : ℝ
  gasR : ℝ
  refMa : ℝ
  cv : ℝ

/-- Embedding of NodeBasedMeshNumberRefine: cells to node layers,
then padded totals. -/
def NodeBasedMeshNumberRefine (s : CSpace) : CSpace :=
  let nz := s.nz + 2
  let ny := s.ny + 2
  let nx := s.nx + 2
  let kMax := nz + 2 * s.ng
  let jMax := ny + 2 * s.ng
  let iMax := nx + 2 * s.ng
  { s with nz := nz, ny := ny, nx := nx,
           kMax := kMax, jMax := jMax, iMax := iMax,
           nMax := kMax * jMax * iMax }

/-- Embedding of InitializeCFDParameters, in source statement order. -/
noncomputable def InitializeCFDParameters (s : CSpace) (t : CTime) (f : CFlow) :
    CSpace × CTime × CFlow :=
  let dz := ((s.zMax - s.zMin) / ((s.nz : ℝ) - 1)) / f.refLength
  let dy := ((s.yMax - s.yMin) / ((s.ny : ℝ) - 1)) / f.refLength
  let dx := ((s.xMax - s.xMin) / ((s.nx : ℝ) - 1)) / f.refLength
  let s1 : CSpace :=
    { s with dz := dz, dy := dy, dx := dx,
             xMax := s.xMax / f.refLength, yMax := s.yMax / f.refLength,
             zMax := s.zMax / f.refLength, xMin := s.xMin / f.refLength,
             yMin := s.yMin / f.refLength, zMin := s.zMin / f.refLength,
             ddx := 1 / dx, ddy := 1 / dy, ddz := 1 / dz,
             tinyL := 1.0e-3 * MinReal dz (MinReal dx dy) }
  let t1 : CTime :=
    { totalTime := t.totalTime * f.refVelocity / f.refLength,
      totalStep := if 0 > t.totalStep then 9000000 else t.totalStep }
  let gamma : ℝ := 1.4
  let gasR0 : ℝ := 8.314462175
  let refMa := f.refVelocity / Real.sqrt (gamma * gasR0 * f.refTemperature)
  let refMu := f.refMu / (f.refDensity * f.refVelocity * f.refLength)
  let gasR := 1 / (gamma * refMa * refMa)
  let f1 : CFlow :=
    { f with gamma := gamma, gammaMinusOne := gamma - 1,
             refMa := refMa, refMu := refMu,
             gasR := gasR, cv := gasR / (gamma - 1) }
  (s1, t1, f1)

/-! ## Ghost-cell immersed-boundary classifier (gcibm.c) -/

/-- Fields of the Space structure read by the classifier. -/
structure GSpace (K : Type) where
  iMax : ℤ
  jMax : ℤ
  kMax : ℤ
  ng : ℤ
  dx : K
  dy : K
  dz : K
  xMin : K
  yMin : K
  zMin : K

/-- The interior box (partition 12) bounds. -/
structure GPartition where
  kSub12 : ℤ
  kSup12 : ℤ
  jSub12 : ℤ
  jSup12 : ℤ
  iSub12 : ℤ
  iSup12 : ℤ

/-- Mutable classifier state: the ghostFlag and geoID arrays, as functions
from the linear node index. -/
structure GState where
  ghostFlag : ℤ → ℤ
  geoID : ℤ → ℤ

/-- Integer range [a, b) as a list in increasing order. -/
def rangeZ (a b : ℤ) : List ℤ :=
  (List.range (b - a).toNat).map fun (t : ℕ) => a + (t : ℤ)

/-- Loop ordering of the triple loop over the interior box: k outermost,
then j, then i. -/
def boxList (p : GPartition) : List (ℤ × ℤ × ℤ) :=
  (rangeZ p.kSub12 p.kSup12).flatMap fun k =>
    (rangeZ p.jSub12 p.jSup12).flatMap fun j =>
      (rangeZ p.iSub12 p.iSup12).map fun i => (k, j, i)

/-- Body of the innermost loop of LocateSolidGeometry: test one body
(with its index geoCount) against the node at idx with loop indices
(k,j,i).  Note the source computes the node coordinate as
(i - ng) * dx etc., without the xMin offset. -/
def LocateBodyStep (sp : GSpace K) (idx k j i : ℤ) (st : GState)
    (gb : ℕ × (K × K × K × K)) : GState :=
  let geoCount := gb.1
  let bx := gb.2.1
  let bodyY := gb.2.2.1
  let bz := gb.2.2.2.1
  let br := gb.2.2.2.2
  let distX := (((i - sp.ng : ℤ) : K) * sp.dx - bx) ^ 2
  let distY := (((j - sp.ng : ℤ) : K) * sp.dy - bodyY) ^ 2
  let distZ := (((k - sp.ng : ℤ) : K) * sp.dz - bz) ^ 2
  let radius := br ^ 2
  let distance := distX + distY + distZ - radius
  if distance < 0 then
    { ghostFlag := Function.update st.ghostFlag idx (-1),
      geoID := Function.update st.geoID idx (geoCount : ℤ) }
  else st

/-- Body of the node loop of LocateSolidGeometry: reset the node to fluid,
then test every body in order. -/
def LocateNodeStep (sp : GSpace K) (bodies : List (K × K × K × K))
    (st : GState) (kji : ℤ × ℤ × ℤ) : GState :=
  let k := kji.1
  let j := kji.2.1
  let i := kji.2.2
  let idx := (k * sp.jMax + j) * sp.iMax + i
  let st0 : GState := { st with ghostFlag := Function.update st.ghostFlag idx 0 }
  bodies.enum.foldl (LocateBodyStep sp idx k j i) st0

/-- Embedding of LocateSolidGeometry: first classifier pass over the
interior box. -/
def LocateSolidGeometry (sp : GSpace K) (bodies : List (K × K × K × K))
    (prt : GPartition) (st : GState) : GState :=
  (boxList prt).foldl (LocateNodeStep sp bodies) st

/-- Product of the six neighbor flags read by IdentifyGhostCells at node
(k,j,i), with the neighbor indices written exactly as in the source. -/
def NbrProd (sp : GSpace K) (flagf : ℤ → ℤ) (k j i : ℤ) : ℤ :=
  let idxW := (k * sp.jMax + j) * sp.iMax + i - 1
  let idxE := (k * sp.jMax + j) * sp.iMax + i + 1
  let idxS := (k * sp.jMax + j - 1) * sp.iMax + i
  let idxN := (k * sp.jMax + j + 1) * sp.iMax + i
  let idxF := ((k - 1) * sp.jMax + j) * sp.iMax + i
  let idxB := ((k + 1) * sp.jMax + j) * sp.iMax + i
  flagf idxW * flagf idxE * flagf idxS * flagf idxN * flagf idxF * flagf idxB

/-- Body of the node loop of IdentifyGhostCells: promote a solid node to
ghost when the product of its six neighbor flags vanishes. -/
def GhostNodeStep (sp : GSpace K) (st : GState) (kji : ℤ × ℤ × ℤ) : GState :=
  let k := kji.1
  let j := kji.2.1
  let i := kji.2.2
  let idx := (k * sp.jMax + j) * sp.iMax + i
  if st.ghostFlag idx = -1 then
    if NbrProd sp st.ghostFlag k j i = 0 then
      { st with ghostFlag := Function.update st.ghostFlag idx 1 }
    else st
  else st

/-- Embedding of IdentifyGhostCells: second classifier pass over the
interior box. -/
def IdentifyGhostCells (sp : GSpace K) (prt : GPartition) (st : GState) : GState :=
  (boxList prt).foldl (GhostNodeStep sp) st

/-- The all-exterior initial state produced by InitializeDomainGeometryGCIBM
before the two passes (every flag 2). -/
def InitGState : GState :=
  { ghostFlag := fun _ => 2, geoID := fun _ => 0 }

/-! ## Theorems -/

/-- Claim C4: for both eigenvalue splitters and every eigenvalue vector
Lambda, LambdaP + LambdaN = Lambda componentwise (exactly for Local
Lax-Friedrichs, within epsilon = 10^-3 for Steger-Warming), and the
Steger-Warming outputs satisfy LambdaP >= 0 and LambdaN <= 0 in every
component. -/
theorem C4_eigenvalue_splitting (Lambda : Fin 5 → ℝ) (r : Fin 5) :
    ((LocalLaxFriedrichs Lambda).1 r + (LocalLaxFriedrichs Lambda).2 r = Lambda r) ∧
    (|(StegerWarming Lambda).1 r + (StegerWarming Lambda).2 r - Lambda r| ≤ 1.0e-3) ∧
    (0 ≤ (StegerWarming Lambda).1 r) ∧ ((StegerWarming Lambda).2 r ≤ 0) := by
  have hrad : (0:ℝ) ≤ Lambda r * Lambda r + 1.0e-3 * 1.0e-3 := by nlinarith [sq_nonneg (Lambda r)]
  have hs0 : 0 ≤ Real.sqrt (Lambda r * Lambda r + 1.0e-3 * 1.0e-3) := Real.sqrt_nonneg _
  have hs2 : Real.sqrt (Lambda r * Lambda r + 1.0e-3 * 1.0e-3) *
      Real.sqrt (Lambda r * Lambda r + 1.0e-3 * 1.0e-3) =
      Lambda r * Lambda r + 1.0e-3 * 1.0e-3 := Real.mul_self_sqrt hrad
  refine ⟨by simp only [LocalLaxFriedrichs]; ring, ?_, ?_, ?_⟩
  · simp only [StegerWarming]
    have h0 : 0.5 * (Lambda r + Real.sqrt (Lambda r * Lambda r + 1.0e-3 * 1.0e-3)) +
        0.5 * (Lambda r - Real.sqrt (Lambda r * Lambda r + 1.0e-3 * 1.0e-3)) - Lambda r
        = 0 := by ring
    rw [h0]
    norm_num
  · simp only [StegerWarming]
    nlinarith [hs0, hs2]
  · simp only [StegerWarming]
    nlinarith [hs0, hs2]

/-- Claim C5: NumericalDiffusiveFluxX computes exactly the face-centered
viscous flux described by the specification (two-point normal derivatives,
four-point tangential averages, arithmetic face means, Sutherland viscosity,
heat conductivity gamma cv mu / Pr with Pr = 0.71). -/
theorem C5_diffusive_flux_x (tn : ℕ) (k j i : ℤ) (n : Fin 3 → ℤ)
    (dd : Fin 3 → ℝ) (node : ℤ → ℕ → Fin 5 → ℝ) (model : Model) :
    NumericalDiffusiveFluxX tn k j i n dd node model =
      SpecDiffusiveFluxX tn k j i n dd node model := by
  funext r
  fin_cases r <;>
    simp only [NumericalDiffusiveFluxX, SpecDiffusiveFluxX, PrandtlNumber,
      Matrix.cons_val_zero, Matrix.cons_val_one, Matrix.head_cons,
      Matrix.cons_val_two, Matrix.tail_cons, Matrix.cons_val_three,
      Matrix.cons_val_four]

/-- Claim C6: converting a positive primitive state to conservative
variables and back returns the same primitive state exactly, and the
temperature component equals p / (rho * gasR). -/
theorem C6_primitive_conservative_roundtrip (gamma gasR rho u v w p T0 : K)
    (hgamma : 1 < gamma) (hrho : 0 < rho) (hp : 0 < p) :
    PrimitiveByConservative gamma gasR
        (ConservativeByPrimitive gamma ![rho, u, v, w, p, T0]) =
      ![rho, u, v, w, p, p / (rho * gasR)] := by
  have hrho0 : rho ≠ 0 := ne_of_gt hrho
  have hg : gamma - 1 ≠ 0 := sub_ne_zero.mpr (ne_of_gt hgamma)
  have key : (0.5 * rho * (u * u + v * v + w * w) + p / (gamma - 1)
      - 0.5 * ((rho * u) * (rho * u) + (rho * v) * (rho * v) + (rho * w) * (rho * w)) / rho)
      * (gamma - 1) = p := by
    field_simp
    ring
  funext r
  fin_cases r <;>
    simp only [PrimitiveByConservative, ConservativeByPrimitive,
      Matrix.cons_val_zero, Matrix.cons_val_one, Matrix.head_cons,
      Matrix.cons_val_two, Matrix.tail_cons, Matrix.cons_val_three,
      Matrix.cons_val_four, Matrix.cons_val_fin_one, Fin.isValue]
  · rfl
  · field_simp
  · field_simp
  · field_simp
  · exact key
  · exact congrArg (fun x => x / (rho * gasR)) key

/-- Claim C6 witness: the round trip evaluated at the concrete rational
primitive state (2, 3, 0, 1, 5) with gamma = 2, gasR = 7. -/
theorem C6_primitive_conservative_roundtrip_witness :
    PrimitiveByConservative (K := ℚ) 2 7
        (ConservativeByPrimitive 2 ![2, 3, 0, 1, 5, 0]) =
      ![2, 3, 0, 1, 5, 5 / (2 * 7)] :=
  C6_primitive_conservative_roundtrip 2 7 2 3 0 1 5 0 (by norm_num) (by norm_num)
    (by norm_num)

/-- Claim C8 counterexample: with the classifier flag values fluid = 0,
ghost = 1, solid = -1, exterior = 2, no offset makes the written iblank 1
on fluid and ghost nodes and 0 on interior solid and exterior nodes,
because ghost and solid have the same flag magnitude. -/
theorem C8_no_offset_separates_ghost_from_solid :
    ¬∃ offset : ℤ, (EnsightBlankID offset 0 = 1 ∧ EnsightBlankID offset 1 = 1 ∧
      EnsightBlankID offset (-1) = 0 ∧ EnsightBlankID offset 2 = 0) := by
  rintro ⟨offset, h⟩
  simp only [EnsightBlankID] at h
  rcases h with ⟨h0, h1, hm1, h2⟩
  by_cases c1 : (-offset < 1 ∧ 1 < offset)
  · have cm1 : (-offset < -1 ∧ -1 < offset) := by omega
    rw [if_pos cm1] at hm1
    exact one_ne_zero hm1
  · rw [if_neg c1] at h1
    exact zero_ne_one h1

/-- Claim C8 (amended): the written iblank is 1 iff the flag magnitude is
strictly below the offset; consequently, for the classified field with
flags fluid = 0, ghost = 1, solid = -1, exterior = 2 the offset 2 gives
iblank 1 on fluid, ghost AND interior solid nodes, and 0 on exterior
nodes; no offset yields 0 on solid while keeping 1 on ghost. -/
theorem C8_iblank_magnitude :
    (∀ offset flag : ℤ, EnsightBlankID offset flag = 1 ↔ |flag| < offset) ∧
    (EnsightBlankID 2 0 = 1 ∧ EnsightBlankID 2 1 = 1 ∧
      EnsightBlankID 2 (-1) = 1 ∧ EnsightBlankID 2 2 = 0) := by
  constructor
  · intro offset flag
    simp only [EnsightBlankID]
    rw [abs_lt]
    split_ifs with h
    · simp [h]
    · simp [h]
  · refine ⟨by decide, by decide, by decide, by decide⟩

/-- Claim C9: the code diverges from the claimed orthogonal-frame
postcondition.  With N = (1,0,0) and both Ta and Tb initially zero,
OrthogonalSpace returns Ta = Tb0 x N = (0,0,0), which is not a unit
vector: the final Cross call writes into Ta (its third argument is the
output) instead of producing Tb = N x Ta. -/
theorem C9_orthogonal_space_bug :
    (OrthogonalSpace ![1, 0, 0] ![0, 0, 0] ![0, 0, 0]).1 = ![0, 0, 0] ∧
    Norm (OrthogonalSpace ![1, 0, 0] ![0, 0, 0] ![0, 0, 0]).1 ≠ 1 := by
  have hzero : (OrthogonalSpace ![1, 0, 0] ![0, 0, 0] ![0, 0, 0]).1 = ![0, 0, 0] := by
    funext r
    fin_cases r <;> norm_num [OrthogonalSpace, Cross]
  refine ⟨hzero, ?_⟩
  rw [hzero]
  have : Norm ![(0:ℝ), 0, 0] = 0 := by
    simp [Norm, Dot]
  rw [this]
  norm_num

/-- Claim C10: SymmetricAverage writes only components 1..5 of the output
vector; the density slot Uo[0] keeps the value it held before the call. -/
theorem C10_symmetric_average_frame (averager : ℤ) (gamma : ℝ)
    (UL UR : Fin 5 → ℝ) (Uo : Fin 6 → ℝ) (hL : 0 < UL 0) (hR : 0 < UR 0) :
    SymmetricAverage averager gamma UL UR Uo 0 = Uo 0 := by
  simp [SymmetricAverage, Function.update_apply]

/-- Claim C10 witness: a concrete call in which the prior content 9 of the
density slot survives. -/
theorem C10_symmetric_average_frame_witness :
    SymmetricAverage 1 1.4 ![1, 0, 0, 0, 1] ![1, 0, 0, 0, 1] ![9, 1, 1, 1, 1, 1] 0 = 9 := by
  have h := C10_symmetric_average_frame 1 1.4 ![1, 0, 0, 0, 1] ![1, 0, 0, 0, 1]
    ![9, 1, 1, 1, 1, 1] (by norm_num) (by norm_num)
  simpa using h

/-- Claim C7: with ncx = ncy = ncz = 10, ng = 2, extents [0,1]^3 and all
reference scales 1, mesh refinement and parameter initialization produce
nx = 12, iMax = 16, dx = 1/11, ddx = 11, gamma = 1.4,
refMa = 1/sqrt(1.4 * 8.314462175), and after the overwrite
gasR = 1/(gamma Ma^2) = 8.314462175, exactly in real arithmetic. -/
theorem C7_parameter_normalization :
    let s0 : CSpace :=
      { nx := 10, ny := 10, nz := 10, ng := 2,
        iMax := 0, jMax := 0, kMax := 0, nMax := 0,
        xMin := 0, xMax := 1, yMin := 0, yMax := 1, zMin := 0, zMax := 1,
        dx := 0, dy := 0, dz := 0, ddx := 0, ddy := 0, ddz := 0, tinyL := 0 }
    let f0 : CFlow :=
      { refLength := 1, refVelocity := 1, refDensity := 1,
        refTemperature := 1, refMu := 1, gamma := 0, gammaMinusOne := 0,
        gasR := 0, refMa := 0, cv := 0 }
    let t0 : CTime := { totalTime := 1, totalStep := 100 }
    let s1 := NodeBasedMeshNumberRefine s0
    let r := InitializeCFDParameters s1 t0 f0
    s1.nx = 12 ∧ s1.iMax = 16 ∧ r.1.dx = 1 / 11 ∧ r.1.ddx = 11 ∧
      r.2.2.gamma = 1.4 ∧ r.2.2.refMa = 1 / Real.sqrt (1.4 * 8.314462175) ∧
      r.2.2.gasR = 8.314462175 := by
  intro s0 f0 t0 s1 r
  have hs1 : s1.nx = 12 ∧ s1.iMax = 16 := by
    constructor <;> rfl
  have hrad : (0:ℝ) < 1.4 * 8.314462175 := by norm_num
  have hsq : Real.sqrt (1.4 * 8.314462175) * Real.sqrt (1.4 * 8.314462175)
      = 1.4 * 8.314462175 := Real.mul_self_sqrt hrad.le
  have hsne : Real.sqrt (1.4 * 8.314462175) ≠ 0 :=
    ne_of_gt (Real.sqrt_pos.mpr hrad)
  refine ⟨hs1.1, hs1.2, ?_, ?_, ?_, ?_, ?_⟩
  · show ((1 - 0) / ((12:ℝ) - 1)) / 1 = 1 / 11
    norm_num
  · show 1 / (((1 - 0) / ((12:ℝ) - 1)) / 1) = 11
    norm_num
  · rfl
  · show 1 / Real.sqrt (1.4 * 8.314462175 * 1) = 1 / Real.sqrt (1.4 * 8.314462175)
    norm_num
  · show 1 / (1.4 * (1 / Real.sqrt (1.4 * 8.314462175 * 1)) *
      (1 / Real.sqrt (1.4 * 8.314462175 * 1))) = 8.314462175
    rw [mul_one]
    rw [show (1.4:ℝ) * (1 / Real.sqrt (1.4 * 8.314462175)) *
        (1 / Real.sqrt (1.4 * 8.314462175)) =
        1.4 / (Real.sqrt (1.4 * 8.314462175) * Real.sqrt (1.4 * 8.314462175)) from by
      ring]
    rw [hsq]
    norm_num

set_option maxHeartbeats 2000000 in
/-- Helper for claim C3: the x-direction left and right eigenvector
matrices are mutually inverse whenever c^2 = (gamma - 1)(hT - q). -/
theorem eigen_inverse_x (gamma u v w c hT : ℝ) (hc : c ≠ 0) (hg : gamma - 1 ≠ 0)
    (hT_def : hT = 0.5 * (u * u + v * v + w * w) + c * c / (gamma - 1)) :
    EigenvectorLX u v w c (0.5 * (u * u + v * v + w * w))
        ((gamma - 1) / (2 * c * c)) (1 / (2 * c)) *
      EigenvectorRX u v w hT c (0.5 * (u * u + v * v + w * w)) = 1 := by
  subst hT_def
  ext r s
  fin_cases r <;> fin_cases s <;>
    simp only [EigenvectorLX, EigenvectorRX, Matrix.mul_apply, Fin.sum_univ_five,
      Matrix.of_apply, Matrix.cons_val_zero, Matrix.cons_val_one, Matrix.head_cons,
      Matrix.cons_val_two, Matrix.tail_cons, Matrix.cons_val_three,
      Matrix.cons_val_four, Matrix.head_fin_const, Matrix.one_apply, Fin.isValue]
  all_goals norm_num [Fin.ext_iff]
  all_goals (try field_simp)
  all_goals (try ring)

set_option maxHeartbeats 2000000 in
/-- Helper for claim C3: the y-direction left and right eigenvector
matrices are mutually inverse whenever c^2 = (gamma - 1)(hT - q). -/
theorem eigen_inverse_y (gamma u v w c hT : ℝ) (hc : c ≠ 0) (hg : gamma - 1 ≠ 0)
    (hT_def : hT = 0.5 * (u * u + v * v + w * w) + c * c / (gamma - 1)) :
    EigenvectorLY u v w c (0.5 * (u * u + v * v + w * w))
        ((gamma - 1) / (2 * c * c)) (1 / (2 * c)) *
      EigenvectorRY u v w hT c (0.5 * (u * u + v * v + w * w)) = 1 := by
  subst hT_def
  ext r s
  fin_cases r <;> fin_cases s <;>
    simp only [EigenvectorLY, EigenvectorRY, Matrix.mul_apply, Fin.sum_univ_five,
      Matrix.of_apply, Matrix.cons_val_zero, Matrix.cons_val_one, Matrix.head_cons,
      Matrix.cons_val_two, Matrix.tail_cons, Matrix.cons_val_three,
      Matrix.cons_val_four, Matrix.head_fin_const, Matrix.one_apply, Fin.isValue]
  all_goals norm_num [Fin.ext_iff]
  all_goals (try field_simp)
  all_goals (try ring)

set_option maxHeartbeats 2000000 in
/-- Helper for claim C3: the z-direction left and right eigenvector
matrices are mutually inverse whenever c^2 = (gamma - 1)(hT - q). -/
theorem eigen_inverse_z (gamma u v w c hT : ℝ) (hc : c ≠ 0) (hg : gamma - 1 ≠ 0)
    (hT_def : hT = 0.5 * (u * u + v * v + w * w) + c * c / (gamma - 1)) :
    EigenvectorLZ u v w c (0.5 * (u * u + v * v + w * w))
        ((gamma - 1) / (2 * c * c)) (1 / (2 * c)) *
      EigenvectorRZ u v w hT c (0.5 * (u * u + v * v + w * w)) = 1 := by
  subst hT_def
  ext r s
  fin_cases r <;> fin_cases s <;>
    simp only [EigenvectorLZ, EigenvectorRZ, Matrix.mul_apply, Fin.sum_univ_five,
      Matrix.of_apply, Matrix.cons_val_zero, Matrix.cons_val_one, Matrix.head_cons,
      Matrix.cons_val_two, Matrix.tail_cons, Matrix.cons_val_three,
      Matrix.cons_val_four, Matrix.head_fin_const, Matrix.one_apply, Fin.isValue]
  all_goals norm_num [Fin.ext_iff]
  all_goals (try field_simp)
  all_goals (try ring)

/-- Claim C3: for every direction s, every gamma > 1 and every averaged
state (u, v, w, hT) whose sound speed
c = sqrt((gamma-1)(hT - (u^2+v^2+w^2)/2)) is strictly positive, the 5x5
matrices of EigenvectorL and EigenvectorR satisfy L * R = 1 exactly. -/
theorem C3_eigenvector_inverse (s : Fin 3) (gamma rho u v w hT c : ℝ)
    (hgamma : 1 < gamma)
    (hc_def : c = Real.sqrt ((gamma - 1) * (hT - (u ^ 2 + v ^ 2 + w ^ 2) / 2)))
    (hc : 0 < c) :
    EigenvectorL s gamma ![rho, u, v, w, hT, c] *
      EigenvectorR s ![rho, u, v, w, hT, c] = 1 := by
  have hg : gamma - 1 ≠ 0 := sub_ne_zero.mpr (ne_of_gt hgamma)
  have hcne : c ≠ 0 := ne_of_gt hc
  have hrad : 0 < (gamma - 1) * (hT - (u ^ 2 + v ^ 2 + w ^ 2) / 2) :=
    Real.sqrt_pos.mp (hc_def ▸ hc)
  have hc2 : c * c = (gamma - 1) * (hT - (u ^ 2 + v ^ 2 + w ^ 2) / 2) := by
    rw [hc_def]
    exact Real.mul_self_sqrt hrad.le
  have hT_def : hT = 0.5 * (u * u + v * v + w * w) + c * c / (gamma - 1) := by
    rw [hc2]
    field_simp
    ring
  fin_cases s
  · show EigenvectorLX u v w c (0.5 * (u * u + v * v + w * w))
        ((gamma - 1) / (2 * c * c)) (1 / (2 * c)) *
      EigenvectorRX u v w hT c (0.5 * (u * u + v * v + w * w)) = 1
    exact eigen_inverse_x gamma u v w c hT hcne hg hT_def
  · show EigenvectorLY u v w c (0.5 * (u * u + v * v + w * w))
        ((gamma - 1) / (2 * c * c)) (1 / (2 * c)) *
      EigenvectorRY u v w hT c (0.5 * (u * u + v * v + w * w)) = 1
    exact eigen_inverse_y gamma u v w c hT hcne hg hT_def
  · show EigenvectorLZ u v w c (0.5 * (u * u + v * v + w * w))
        ((gamma - 1) / (2 * c * c)) (1 / (2 * c)) *
      EigenvectorRZ u v w hT c (0.5 * (u * u + v * v + w * w)) = 1
    exact eigen_inverse_z gamma u v w c hT hcne hg hT_def

/-- Claim C3 witness: the x-direction inverse property instantiated at the
concrete state u = v = w = 0, hT = 1, gamma = 2, for which c = 1. -/
theorem C3_eigenvector_inverse_witness :
    EigenvectorL 0 2 ![1, 0, 0, 0, 1, Real.sqrt ((2 - 1) * (1 - (0 ^ 2 + 0 ^ 2 + 0 ^ 2) / 2))] *
      EigenvectorR 0 ![1, 0, 0, 0, 1, Real.sqrt ((2 - 1) * (1 - (0 ^ 2 + 0 ^ 2 + 0 ^ 2) / 2))] = 1 :=
  C3_eigenvector_inverse 0 2 1 0 0 0 1 _ (by norm_num) rfl (by
    rw [show ((2:ℝ) - 1) * (1 - ((0:ℝ) ^ 2 + 0 ^ 2 + 0 ^ 2) / 2) = 1 by norm_num,
      Real.sqrt_one]
    norm_num)

/-- Helper: membership in an integer range list. -/
theorem rangeZ_mem (a b x : ℤ) : x ∈ rangeZ a b ↔ a ≤ x ∧ x < b := by
  simp only [rangeZ, List.mem_map, List.mem_range]
  constructor
  · rintro ⟨t, ht, rfl⟩
    omega
  · intro hx
    refine ⟨(x - a).toNat, ?_, ?_⟩
    · omega
    · omega

/-- Helper: membership in the interior-box loop list. -/
theorem boxList_mem (p : GPartition) (t : ℤ × ℤ × ℤ) :
    t ∈ boxList p ↔
      (p.kSub12 ≤ t.1 ∧ t.1 < p.kSup12) ∧ (p.jSub12 ≤ t.2.1 ∧ t.2.1 < p.jSup12) ∧
        (p.iSub12 ≤ t.2.2 ∧ t.2.2 < p.iSup12) := by
  obtain ⟨k, j, i⟩ := t
  simp only [boxList, List.mem_flatMap, List.mem_map]
  constructor
  · rintro ⟨k0, hk0, j0, hj0, i0, hi0, heq⟩
    simp only [Prod.mk.injEq] at heq
    obtain ⟨rfl, rfl, rfl⟩ := heq
    exact ⟨(rangeZ_mem _ _ _).mp hk0, (rangeZ_mem _ _ _).mp hj0, (rangeZ_mem _ _ _).mp hi0⟩
  · rintro ⟨hk, hj, hi⟩
    exact ⟨k, (rangeZ_mem _ _ _).mpr hk, j, (rangeZ_mem _ _ _).mpr hj,
      i, (rangeZ_mem _ _ _).mpr hi, rfl⟩

/-- Helper: the linear index map is injective while i and j stay inside
their rows. -/
theorem indexNode_inj (jMax iMax k j i k2 j2 i2 : ℤ)
    (hiM : 0 < iMax) (hjM : 0 < jMax)
    (hi : 0 ≤ i ∧ i < iMax) (hi2 : 0 ≤ i2 ∧ i2 < iMax)
    (hj : 0 ≤ j ∧ j < jMax) (hj2 : 0 ≤ j2 ∧ j2 < jMax)
    (h : (k * jMax + j) * iMax + i = (k2 * jMax + j2) * iMax + i2) :
    k = k2 ∧ j = j2 ∧ i = i2 := by
  have hieq : i = i2 := by
    have e1 : i = ((k * jMax + j) * iMax + i) % iMax := by
      rw [show (k * jMax + j) * iMax + i = i + iMax * (k * jMax + j) from by ring,
        Int.add_mul_emod_self_left, Int.emod_eq_of_lt hi.1 hi.2]
    have e2 : i2 = ((k2 * jMax + j2) * iMax + i2) % iMax := by
      rw [show (k2 * jMax + j2) * iMax + i2 = i2 + iMax * (k2 * jMax + j2) from by ring,
        Int.add_mul_emod_self_left, Int.emod_eq_of_lt hi2.1 hi2.2]
    rw [e1, e2, h]
  subst hieq
  have hrow : k * jMax + j = k2 * jMax + j2 :=
    mul_right_cancel₀ (ne_of_gt hiM) (by omega)
  have hjeq : j = j2 := by
    have e1 : j = (k * jMax + j) % jMax := by
      rw [show k * jMax + j = j + jMax * k from by ring,
        Int.add_mul_emod_self_left, Int.emod_eq_of_lt hj.1 hj.2]
    have e2 : j2 = (k2 * jMax + j2) % jMax := by
      rw [show k2 * jMax + j2 = j2 + jMax * k2 from by ring,
        Int.add_mul_emod_self_left, Int.emod_eq_of_lt hj2.1 hj2.2]
    rw [e1, e2, hrow]
  subst hjeq
  have : k * jMax = k2 * jMax := by omega
  exact ⟨mul_right_cancel₀ (ne_of_gt hjM) this, rfl, rfl⟩

/-- Helper: the inner body loop of the first classifier pass either leaves
the flag of its node unchanged or sets it to -1, and never touches any
other node. -/
theorem locate_body_fold_flag (sp : GSpace K) (idx0 k j i : ℤ) :
    ∀ (bs : List (ℕ × (K × K × K × K))) (st : GState),
      ((bs.foldl (LocateBodyStep sp idx0 k j i) st).ghostFlag idx0 = st.ghostFlag idx0 ∨
        (bs.foldl (LocateBodyStep sp idx0 k j i) st).ghostFlag idx0 = -1) ∧
      (∀ P, P ≠ idx0 →
        (bs.foldl (LocateBodyStep sp idx0 k j i) st).ghostFlag P = st.ghostFlag P) := by
  intro bs
  induction bs with
  | nil => exact fun st => ⟨Or.inl rfl, fun P _ => rfl⟩
  | cons b bs ih =>
    intro st
    have hother : ∀ P, P ≠ idx0 →
        (LocateBodyStep sp idx0 k j i st b).ghostFlag P = st.ghostFlag P := by
      intro P hP
      simp only [LocateBodyStep]
      split
      · exact Function.update_noteq hP _ _
      · rfl
    have hown : (LocateBodyStep sp idx0 k j i st b).ghostFlag idx0 = st.ghostFlag idx0 ∨
        (LocateBodyStep sp idx0 k j i st b).ghostFlag idx0 = -1 := by
      simp only [LocateBodyStep]
      split
      · exact Or.inr (Function.update_same _ _ _)
      · exact Or.inl rfl
    refine ⟨?_, ?_⟩
    · rcases (ih (LocateBodyStep sp idx0 k j i st b)).1 with h | h
      · rw [List.foldl_cons] at *
        rcases hown with h2 | h2
        · exact Or.inl (h.trans h2)
        · exact Or.inr (h.trans h2)
      · exact Or.inr h
    · intro P hP
      rw [List.foldl_cons, (ih _).2 P hP, hother P hP]

/-- Helper: one node step of the first pass gives its own node flag 0 or
-1 and leaves other nodes unchanged. -/
theorem locate_node_step_flag (sp : GSpace K) (bodies : List (K × K × K × K))
    (st : GState) (t : ℤ × ℤ × ℤ) :
    ((LocateNodeStep sp bodies st t).ghostFlag
        ((t.1 * sp.jMax + t.2.1) * sp.iMax + t.2.2) = 0 ∨
      (LocateNodeStep sp bodies st t).ghostFlag
        ((t.1 * sp.jMax + t.2.1) * sp.iMax + t.2.2) = -1) ∧
    (∀ P, P ≠ (t.1 * sp.jMax + t.2.1) * sp.iMax + t.2.2 →
      (LocateNodeStep sp bodies st t).ghostFlag P = st.ghostFlag P) := by
  obtain ⟨k, j, i⟩ := t
  simp only [LocateNodeStep]
  have h := locate_body_fold_flag sp ((k * sp.jMax + j) * sp.iMax + i) k j i bodies.enum
    { st with ghostFlag :=
        Function.update st.ghostFlag ((k * sp.jMax + j) * sp.iMax + i) 0 }
  refine ⟨?_, ?_⟩
  · rcases h.1 with h1 | h1
    · exact Or.inl (h1.trans (Function.update_same _ _ _))
    · exact Or.inr h1
  · intro P hP
    rw [h.2 P hP]
    exact Function.update_noteq hP _ _

/-- Helper: after the first pass, every node of the visited list has flag
0 or -1; a node whose flag was already 0 or -1 keeps a flag in {0, -1}. -/
theorem locate_fold_flag (sp : GSpace K) (bodies : List (K × K × K × K)) :
    ∀ (L : List (ℤ × ℤ × ℤ)) (st : GState) (P : ℤ),
      ((∃ t ∈ L, (t.1 * sp.jMax + t.2.1) * sp.iMax + t.2.2 = P) ∨
        st.ghostFlag P = 0 ∨ st.ghostFlag P = -1) →
      ((L.foldl (LocateNodeStep sp bodies) st).ghostFlag P = 0 ∨
        (L.foldl (LocateNodeStep sp bodies) st).ghostFlag P = -1) := by
  intro L
  induction L with
  | nil =>
    intro st P h
    rcases h with ⟨t, ht, _⟩ | h
    · exact absurd ht (List.not_mem_nil t)
    · exact h
  | cons a L ih =>
    intro st P h
    rw [List.foldl_cons]
    have hstep := locate_node_step_flag sp bodies st a
    rcases h with ⟨t, ht, hidx⟩ | h
    · rcases List.mem_cons.mp ht with rfl | htL
      · by_cases hPL : ∃ t ∈ L, (t.1 * sp.jMax + t.2.1) * sp.iMax + t.2.2 = P
        · exact ih _ P (Or.inl hPL)
        · refine ih _ P (Or.inr ?_)
          rw [← hidx]
          exact hstep.1
      · exact ih _ P (Or.inl ⟨t, htL, hidx⟩)
    · refine ih _ P (Or.inr ?_)
      by_cases hP : P = (a.1 * sp.jMax + a.2.1) * sp.iMax + a.2.2
      · rw [hP]
        exact hstep.1
      · rw [hstep.2 P hP]
        exact h

/-- Helper: characterization of the second classifier pass as a fold.
Relative to a reference flag field init, any state whose flags agree with
init except for solid nodes already promoted to ghost evolves so that a
node ends at 1 when some visit of the list hits its index with the ghost
condition (solid in init with vanishing neighbor product in init), and is
left untouched otherwise. -/
theorem ghost_fold_char (sp : GSpace K) (init : ℤ → ℤ) :
    ∀ (L : List (ℤ × ℤ × ℤ)) (st : GState),
      (∀ Q, st.ghostFlag Q = init Q ∨ (st.ghostFlag Q = 1 ∧ init Q = -1)) →
      ∀ P : ℤ,
        ((∃ t ∈ L, (t.1 * sp.jMax + t.2.1) * sp.iMax + t.2.2 = P ∧
            init ((t.1 * sp.jMax + t.2.1) * sp.iMax + t.2.2) = -1 ∧
            NbrProd sp init t.1 t.2.1 t.2.2 = 0) →
          (L.foldl (GhostNodeStep sp) st).ghostFlag P = 1) ∧
        ((¬∃ t ∈ L, (t.1 * sp.jMax + t.2.1) * sp.iMax + t.2.2 = P ∧
            init ((t.1 * sp.jMax + t.2.1) * sp.iMax + t.2.2) = -1 ∧
            NbrProd sp init t.1 t.2.1 t.2.2 = 0) →
          (L.foldl (GhostNodeStep sp) st).ghostFlag P = st.ghostFlag P) := by
  intro L
  induction L with
  | nil =>
    intro st hJ P
    refine ⟨?_, fun _ => rfl⟩
    rintro ⟨t, ht, _⟩
    exact absurd ht (List.not_mem_nil t)
  | cons a L ih =>
    intro st hJ P
    obtain ⟨k, j, i⟩ := a
    set A := (k * sp.jMax + j) * sp.iMax + i with hA
    have hzero : ∀ Q, st.ghostFlag Q = 0 ↔ init Q = 0 := by
      intro Q
      rcases hJ Q with h | ⟨h1, h2⟩ <;> constructor <;> intro h0 <;> omega
    have hprod : NbrProd sp st.ghostFlag k j i = 0 ↔ NbrProd sp init k j i = 0 := by
      simp only [NbrProd, mul_eq_zero, hzero]
    have hstep : ∀ Q, (GhostNodeStep sp st (k, j, i)).ghostFlag Q =
        if Q = A ∧ init A = -1 ∧ NbrProd sp init k j i = 0 then 1
        else st.ghostFlag Q := by
      intro Q
      simp only [GhostNodeStep, ← hA]
      by_cases hsolid : st.ghostFlag A = -1
      · have hinitA : init A = -1 := by
          rcases hJ A with h | ⟨h1, _⟩ <;> omega
        rw [if_pos hsolid]
        by_cases hp : NbrProd sp st.ghostFlag k j i = 0
        · rw [if_pos hp]
          by_cases hQ : Q = A
          · subst hQ
            rw [if_pos ⟨rfl, hinitA, hprod.mp hp⟩]
            exact Function.update_same _ _ _
          · rw [if_neg (by tauto)]
            exact Function.update_noteq hQ _ _
        · rw [if_neg hp]
          rw [if_neg (by
            rintro ⟨_, _, hip⟩
            exact hp (hprod.mpr hip))]
      · rw [if_neg hsolid]
        by_cases hcond : Q = A ∧ init A = -1 ∧ NbrProd sp init k j i = 0
        · obtain ⟨hQA, hsolA, hnp⟩ := hcond
          rw [if_pos ⟨hQA, hsolA, hnp⟩, hQA]
          rcases hJ A with h | ⟨h1, _⟩
          · omega
          · omega
        · rw [if_neg hcond]
    have hJ1 : ∀ Q, (GhostNodeStep sp st (k, j, i)).ghostFlag Q = init Q ∨
        ((GhostNodeStep sp st (k, j, i)).ghostFlag Q = 1 ∧ init Q = -1) := by
      intro Q
      rw [hstep Q]
      by_cases hcond : Q = A ∧ init A = -1 ∧ NbrProd sp init k j i = 0
      · rw [if_pos hcond]
        refine Or.inr ⟨rfl, ?_⟩
        rw [hcond.1]
        exact hcond.2.1
      · rw [if_neg hcond]
        exact hJ Q
    have ihP := ih (GhostNodeStep sp st (k, j, i)) hJ1 P
    refine ⟨?_, ?_⟩
    · rintro ⟨t, ht, hidx, hsol, hnp⟩
      rcases List.mem_cons.mp ht with rfl | htL
      · by_cases hL : ∃ t ∈ L, (t.1 * sp.jMax + t.2.1) * sp.iMax + t.2.2 = P ∧
            init ((t.1 * sp.jMax + t.2.1) * sp.iMax + t.2.2) = -1 ∧
            NbrProd sp init t.1 t.2.1 t.2.2 = 0
        · rw [List.foldl_cons]
          exact ihP.1 hL
        · rw [List.foldl_cons, ihP.2 hL, hstep P]
          have hPA : P = A := by rw [hA]; exact hidx.symm
          have hiA : init A = -1 := by rw [hA]; exact hsol
          rw [if_pos ⟨hPA, hiA, hnp⟩]
      · rw [List.foldl_cons]
        exact ihP.1 ⟨t, htL, hidx, hsol, hnp⟩
    · intro hno
      have hnoL : ¬∃ t ∈ L, (t.1 * sp.jMax + t.2.1) * sp.iMax + t.2.2 = P ∧
          init ((t.1 * sp.jMax + t.2.1) * sp.iMax + t.2.2) = -1 ∧
          NbrProd sp init t.1 t.2.1 t.2.2 = 0 := by
        rintro ⟨t, htL, hok⟩
        exact hno ⟨t, List.mem_cons_of_mem _ htL, hok⟩
      rw [List.foldl_cons, ihP.2 hnoL, hstep P]
      rw [if_neg (by
        rintro ⟨hQA, hsol2, hnp2⟩
        refine hno ⟨(k, j, i), List.mem_cons_self _ _, ?_, ?_, hnp2⟩
        · rw [← hA]
          exact hQA.symm
        · rw [← hA]
          exact hsol2)]

/-- Claim C2: after the second classifier pass over the interior box, a
node of the box has flag ghost (1) iff it was interior solid (-1) after
the first pass and at least one of its six axis-aligned neighbors had
interior-fluid flag 0 after the first pass; a solid node with no fluid
6-neighbor keeps flag -1; and the pass changes no node that was not solid
(in particular no fluid or exterior node). -/
theorem C2_ghost_cells_iff (sp : GSpace K) (prt : GPartition)
    (bodies : List (K × K × K × K)) (st0 : GState) (F1 F2 : ℤ → ℤ)
    (hF1 : F1 = (LocateSolidGeometry sp bodies prt st0).ghostFlag)
    (hF2 : F2 = (IdentifyGhostCells sp prt (LocateSolidGeometry sp bodies prt st0)).ghostFlag)
    (hiM : 0 < sp.iMax) (hjM : 0 < sp.jMax)
    (hi0 : 0 ≤ prt.iSub12) (hi1 : prt.iSup12 ≤ sp.iMax)
    (hj0 : 0 ≤ prt.jSub12) (hj1 : prt.jSup12 ≤ sp.jMax)
    (k j i : ℤ)
    (hk : prt.kSub12 ≤ k ∧ k < prt.kSup12)
    (hjr : prt.jSub12 ≤ j ∧ j < prt.jSup12)
    (hir : prt.iSub12 ≤ i ∧ i < prt.iSup12)
    (fluidNbr : Prop)
    (hfn : fluidNbr ↔ (F1 (IndexNode k j (i - 1) sp.jMax sp.iMax) = 0 ∨
      F1 (IndexNode k j (i + 1) sp.jMax sp.iMax) = 0 ∨
      F1 (IndexNode k (j - 1) i sp.jMax sp.iMax) = 0 ∨
      F1 (IndexNode k (j + 1) i sp.jMax sp.iMax) = 0 ∨
      F1 (IndexNode (k - 1) j i sp.jMax sp.iMax) = 0 ∨
      F1 (IndexNode (k + 1) j i sp.jMax sp.iMax) = 0)) :
    (F2 (IndexNode k j i sp.jMax sp.iMax) = 1 ↔
      (F1 (IndexNode k j i sp.jMax sp.iMax) = -1 ∧ fluidNbr)) ∧
    ((F1 (IndexNode k j i sp.jMax sp.iMax) = -1 ∧ ¬fluidNbr) →
      F2 (IndexNode k j i sp.jMax sp.iMax) = -1) ∧
    (∀ P : ℤ, F1 P ≠ -1 → F2 P = F1 P) := by
  subst hF1
  subst hF2
  simp only [IndexNode] at hfn ⊢
  have hchar := ghost_fold_char sp (LocateSolidGeometry sp bodies prt st0).ghostFlag
    (boxList prt) (LocateSolidGeometry sp bodies prt st0) (fun _ => Or.inl rfl)
  have hIG : ∀ P, (IdentifyGhostCells sp prt
      (LocateSolidGeometry sp bodies prt st0)).ghostFlag P =
      ((boxList prt).foldl (GhostNodeStep sp)
        (LocateSolidGeometry sp bodies prt st0)).ghostFlag P := fun _ => rfl
  have hval : (LocateSolidGeometry sp bodies prt st0).ghostFlag
      ((k * sp.jMax + j) * sp.iMax + i) = 0 ∨
      (LocateSolidGeometry sp bodies prt st0).ghostFlag
        ((k * sp.jMax + j) * sp.iMax + i) = -1 :=
    locate_fold_flag sp bodies (boxList prt) st0 _
      (Or.inl ⟨(k, j, i), (boxList_mem prt (k, j, i)).mpr ⟨hk, hjr, hir⟩, rfl⟩)
  -- translate the neighbor product to the six-neighbor disjunction
  have eW : (k * sp.jMax + j) * sp.iMax + i - 1 =
      (k * sp.jMax + j) * sp.iMax + (i - 1) := by ring
  have eE : (k * sp.jMax + j) * sp.iMax + i + 1 =
      (k * sp.jMax + j) * sp.iMax + (i + 1) := by ring
  have eS : (k * sp.jMax + j - 1) * sp.iMax + i =
      (k * sp.jMax + (j - 1)) * sp.iMax + i := by ring
  have eN : (k * sp.jMax + j + 1) * sp.iMax + i =
      (k * sp.jMax + (j + 1)) * sp.iMax + i := by ring
  have hNP : NbrProd sp (LocateSolidGeometry sp bodies prt st0).ghostFlag k j i = 0 ↔
      ((LocateSolidGeometry sp bodies prt st0).ghostFlag
          ((k * sp.jMax + j) * sp.iMax + (i - 1)) = 0 ∨
        (LocateSolidGeometry sp bodies prt st0).ghostFlag
          ((k * sp.jMax + j) * sp.iMax + (i + 1)) = 0 ∨
        (LocateSolidGeometry sp bodies prt st0).ghostFlag
          ((k * sp.jMax + (j - 1)) * sp.iMax + i) = 0 ∨
        (LocateSolidGeometry sp bodies prt st0).ghostFlag
          ((k * sp.jMax + (j + 1)) * sp.iMax + i) = 0 ∨
        (LocateSolidGeometry sp bodies prt st0).ghostFlag
          (((k - 1) * sp.jMax + j) * sp.iMax + i) = 0 ∨
        (LocateSolidGeometry sp bodies prt st0).ghostFlag
          (((k + 1) * sp.jMax + j) * sp.iMax + i) = 0) := by
    simp only [NbrProd, mul_eq_zero, eW, eE, eS, eN, or_assoc]
  -- the fold condition specialised to the node (k,j,i)
  have hcond_iff : (∃ t ∈ boxList prt,
      (t.1 * sp.jMax + t.2.1) * sp.iMax + t.2.2 = (k * sp.jMax + j) * sp.iMax + i ∧
      (LocateSolidGeometry sp bodies prt st0).ghostFlag
        ((t.1 * sp.jMax + t.2.1) * sp.iMax + t.2.2) = -1 ∧
      NbrProd sp (LocateSolidGeometry sp bodies prt st0).ghostFlag t.1 t.2.1 t.2.2 = 0) ↔
      ((LocateSolidGeometry sp bodies prt st0).ghostFlag
          ((k * sp.jMax + j) * sp.iMax + i) = -1 ∧
        NbrProd sp (LocateSolidGeometry sp bodies prt st0).ghostFlag k j i = 0) := by
    constructor
    · rintro ⟨t, htL, hidx, hsol, hnp⟩
      obtain ⟨hkt, hjt, hit⟩ := (boxList_mem prt t).mp htL
      obtain ⟨rfl, rfl, rfl⟩ := indexNode_inj sp.jMax sp.iMax t.1 t.2.1 t.2.2 k j i hiM hjM
        (by omega) (by omega) (by omega) (by omega) hidx
      exact ⟨hidx ▸ hsol, hnp⟩
    · rintro ⟨hsol, hnp⟩
      exact ⟨(k, j, i), (boxList_mem prt (k, j, i)).mpr ⟨hk, hjr, hir⟩, rfl, hsol, hnp⟩
  refine ⟨⟨?_, ?_⟩, ?_, ?_⟩
  · intro h2
    by_cases hc : ∃ t ∈ boxList prt,
        (t.1 * sp.jMax + t.2.1) * sp.iMax + t.2.2 = (k * sp.jMax + j) * sp.iMax + i ∧
        (LocateSolidGeometry sp bodies prt st0).ghostFlag
          ((t.1 * sp.jMax + t.2.1) * sp.iMax + t.2.2) = -1 ∧
        NbrProd sp (LocateSolidGeometry sp bodies prt st0).ghostFlag t.1 t.2.1 t.2.2 = 0
    · obtain ⟨hsol, hnp⟩ := hcond_iff.mp hc
      exact ⟨hsol, hfn.mpr (hNP.mp hnp)⟩
    · rw [hIG, (hchar _).2 hc] at h2
      rcases hval with h | h <;> omega
  · rintro ⟨hsol, hfl⟩
    rw [hIG]
    exact (hchar _).1 (hcond_iff.mpr ⟨hsol, hNP.mpr (hfn.mp hfl)⟩)
  · rintro ⟨hsol, hnfl⟩
    rw [hIG, (hchar _).2 (fun hc => hnfl (hfn.mpr (hNP.mp (hcond_iff.mp hc).2)))]
    exact hsol
  · intro P hP
    rw [hIG, (hchar P).2 (by
      rintro ⟨t, _, hidx, hsol, _⟩
      exact hP (hidx ▸ hsol))]

/-- Claim C2 witness: a 3x1x1 interior box over the rationals with a
single unit-radius body centered on the middle node; all hypotheses are
discharged at the node (0,0,1). -/
theorem C2_ghost_cells_iff_witness :
    let sp : GSpace ℚ := ⟨3, 1, 1, 0, 1, 1, 1, 0, 0, 0⟩
    let prt : GPartition := ⟨0, 1, 0, 1, 0, 3⟩
    let bodies : List (ℚ × ℚ × ℚ × ℚ) := [(1, 0, 0, 1)]
    let F1 := (LocateSolidGeometry sp bodies prt InitGState).ghostFlag
    let F2 := (IdentifyGhostCells sp prt
      (LocateSolidGeometry sp bodies prt InitGState)).ghostFlag
    (F2 (IndexNode 0 0 1 sp.jMax sp.iMax) = 1 ↔
      (F1 (IndexNode 0 0 1 sp.jMax sp.iMax) = -1 ∧
        (F1 (IndexNode 0 0 (1 - 1) sp.jMax sp.iMax) = 0 ∨
          F1 (IndexNode 0 0 (1 + 1) sp.jMax sp.iMax) = 0 ∨
          F1 (IndexNode 0 (0 - 1) 1 sp.jMax sp.iMax) = 0 ∨
          F1 (IndexNode 0 (0 + 1) 1 sp.jMax sp.iMax) = 0 ∨
          F1 (IndexNode (0 - 1) 0 1 sp.jMax sp.iMax) = 0 ∨
          F1 (IndexNode (0 + 1) 0 1 sp.jMax sp.iMax) = 0))) ∧
    ((F1 (IndexNode 0 0 1 sp.jMax sp.iMax) = -1 ∧
      ¬(F1 (IndexNode 0 0 (1 - 1) sp.jMax sp.iMax) = 0 ∨
          F1 (IndexNode 0 0 (1 + 1) sp.jMax sp.iMax) = 0 ∨
          F1 (IndexNode 0 (0 - 1) 1 sp.jMax sp.iMax) = 0 ∨
          F1 (IndexNode 0 (0 + 1) 1 sp.jMax sp.iMax) = 0 ∨
          F1 (IndexNode (0 - 1) 0 1 sp.jMax sp.iMax) = 0 ∨
          F1 (IndexNode (0 + 1) 0 1 sp.jMax sp.iMax) = 0)) →
      F2 (IndexNode 0 0 1 sp.jMax sp.iMax) = -1) ∧
    (∀ P : ℤ, F1 P ≠ -1 → F2 P = F1 P) := by
  intro sp prt bodies F1 F2
  exact C2_ghost_cells_iff sp prt bodies InitGState F1 F2 rfl rfl
    (by decide) (by decide) (by decide) (by decide) (by decide) (by decide)
    0 0 1 (by decide) (by decide) (by decide) _ Iff.rfl

/-- Claim C1: the first classifier pass contradicts the claimed node
coordinate x_i = xMin + (i - ng) dx: with xMin = yMin = zMin = 1, unit
spacings, ng = 0 and a body of radius 1/2 centered at (1,1,1), the node
(0,0,0) lies strictly inside the body under the claimed coordinates (its
PointSpace coordinate is (1,1,1)), yet LocateSolidGeometry computes the
distance from (i - ng) dx = (0,0,0) and classifies the node as fluid (0)
instead of solid (-1). -/
theorem C1_locate_solid_geometry_ignores_min :
    let sp : GSpace ℚ := ⟨1, 1, 1, 0, 1, 1, 1, 1, 1, 1⟩
    let prt : GPartition := ⟨0, 1, 0, 1, 0, 1⟩
    let bodies : List (ℚ × ℚ × ℚ × ℚ) := [(1, 1, 1, 1/2)]
    (LocateSolidGeometry sp bodies prt InitGState).ghostFlag (IndexNode 0 0 0 1 1) = 0 ∧
    (PointSpace 0 sp.xMin sp.dx sp.ng - 1) ^ 2 + (PointSpace 0 sp.yMin sp.dy sp.ng - 1) ^ 2 +
      (PointSpace 0 sp.zMin sp.dz sp.ng - 1) ^ 2 - (1/2 : ℚ) ^ 2 < 0 := by
  intro sp prt bodies
  constructor
  · have hbox : boxList prt = [(0, 0, 0)] := by decide
    have henum : bodies.enum = [(0, (1, 1, 1, 1/2))] := rfl
    show ((boxList prt).foldl (LocateNodeStep sp bodies) InitGState).ghostFlag
      (IndexNode 0 0 0 1 1) = 0
    rw [hbox]
    simp only [List.foldl_cons, List.foldl_nil, LocateNodeStep, henum, LocateBodyStep]
    rw [if_neg (by norm_num)]
    simp [InitGState, IndexNode, Function.update]
  · norm_num [PointSpace]

end ArtraCFD
